import Mathlib

/-!
Shallow embedding of the core of the CodeEmpowerSystem repository
(`metric_validator.py`, `parser.py`, `retriver.py`, `chunker.py`) together
with theorems settling the frozen claims about it.

Python floats are modelled as exact rationals (`ℚ`); fallible Python code is
modelled with `Except PyErr`.  Dictionaries that the code builds key by key
are modelled as insertion-ordered association lists.
-/

deriving instance DecidableEq for Except

namespace CES

/- Batteries marks the arithmetic on `Rat` `@[irreducible]`, which blocks
`decide` on concrete rational computations; restore the default locally. -/
attribute [local semireducible] Rat.sub Rat.mul Rat.inv Rat.add

/-- Errors a modelled Python fragment can raise. -/
inductive PyErr where
  | zeroDivision
  | typeError
  | valueError
  deriving DecidableEq, Repr

/-! ### Python string primitives used by the source -/

/-- Characters stripped by `str.strip()` / matched by the regex class `\s`
(ASCII part; the unicode extension is irrelevant to the corpus). -/
def isPySpace (c : Char) : Bool :=
  c = ' ' || c = '\t' || c = '\n' || c = '\r' || c = '\x0b' || c = '\x0c'

def pyStripList (l : List Char) : List Char :=
  ((l.dropWhile isPySpace).reverse.dropWhile isPySpace).reverse

/-- Python `str.strip()`. -/
def pyStrip (s : String) : String := ⟨pyStripList s.data⟩

/-- Python `sep.join(parts)`. -/
def pyJoin (sep : String) : List String → String
  | [] => ""
  | [x] => x
  | x :: xs => x ++ sep ++ pyJoin sep xs

/-- Python `needle in hay` on strings (substring test). -/
def strContains (hay needle : String) : Bool :=
  decide (needle.data <:+: hay.data)

/-! ### Rendering numbers the way the validator's f-strings do

The deviation is printed with `{diff:.1f}` and the raw values with `str()`.
Floats are modelled as rationals, so the renderings below reproduce the
decimal output of CPython on the (decimal-exact) values the claims use. -/

/-- Round to the nearest integer, ties to even (the rounding `%.1f` uses). -/
def roundHalfEven (q : ℚ) : ℤ :=
  let f := ⌊q⌋
  let r := q - (f : ℚ)
  if r < 1/2 then f
  else if 1/2 < r then f + 1
  else if f % 2 = 0 then f else f + 1

/-- Python `f"{q:.1f}"` for a nonnegative value (the source only formats
`abs(...)`-derived values this way). -/
def format1f (q : ℚ) : String :=
  let n := (roundHalfEven (|q| * 10)).toNat
  toString (n / 10) ++ "." ++ toString (n % 10)

/-- Smallest exponent `e ≤ fuel` with `q * 10^e` integral, if any. -/
def decExp (q : ℚ) : Nat → Option Nat
  | 0 => if (q * (10 : ℚ) ^ (0 : ℕ)).den = 1 then some 0 else none
  | n + 1 =>
    match decExp q n with
    | some e => some e
    | none => if (q * (10 : ℚ) ^ (n + 1)).den = 1 then some (n + 1) else none

/-- Python `str(float)` on values whose shortest repr is plain decimal
(all values the claims exercise); integral values print with `.0`. -/
def ratStr (q : ℚ) : String :=
  let sign := if q < 0 then "-" else ""
  let a := |q|
  if a.den = 1 then sign ++ toString a.num ++ ".0"
  else
    match decExp a 40 with
    | some e =>
      let m := (a * (10 : ℚ) ^ e).num.toNat
      let ds := toString m
      let ds := if ds.length ≤ e then String.mk (List.replicate (e + 1 - ds.length) '0') ++ ds else ds
      sign ++ ds.take (ds.length - e) ++ "." ++ ds.drop (ds.length - e)
    | none => sign ++ toString a.num ++ "/" ++ toString a.den

/-! ### MetricValidator (`src/metric_validator.py`) -/

/-- One record of `payload['used_metrics']`; `value := none` models a value
that `float()` cannot coerce (the `except` branch of lines 50-55). -/
structure MetricEntry where
  name : String
  value : Option ℚ
  deriving DecidableEq, Repr

/-- The payload shape `MetricValidator.validate` consumes and returns. -/
structure VPayload where
  answer : String
  confidence : ℚ
  citations : List String
  key_points : List String
  notes : String
  used_metrics : List MetricEntry
  deriving DecidableEq, Repr

/-- `reference_data`: a dict from metric name to a value; `none` models a
reference that `float()` cannot coerce. -/
abbrev RefTable := List (String × Option ℚ)

/-- Python `dict.get` (keys of a dict are unique, so first match). -/
def lookupRef (t : RefTable) (k : String) : Option (Option ℚ) :=
  (t.find? (fun p => p.1 = k)).map (·.2)

def SUPPORTED_METRICS : List String :=
  ["inventory_turnover", "order_fulfillment_rate", "transit_time",
   "warehousing_cost", "on_time_delivery_rate"]

/-- `MetricValidator._get_tolerance`. -/
def getTolerance (name : String) : ℚ :=
  if name = "inventory_turnover" then 5/100
  else if name = "order_fulfillment_rate" then 2/100
  else if name = "transit_time" then 10/100
  else if name = "warehousing_cost" then 5/100
  else if name = "on_time_delivery_rate" then 2/100
  else 5/100

/-- `MetricValidator._is_within_tolerance`. -/
def isWithinTolerance (value reference tolerance : ℚ) : Bool :=
  if reference = 0 then value = 0
  else |value - reference| / reference ≤ tolerance

def noRefNote (name : String) : String := "无法验证指标 " ++ name ++ "：无基准值"

def typeNote (name : String) : String := "无法验证指标 " ++ name ++ "：数据类型错误"

def outNote (name : String) (diff r v : ℚ) : String :=
  name ++ "超差" ++ format1f diff ++ "%（基准:" ++ ratStr r ++ ", 抽取:" ++ ratStr v ++ "）"

def inNote (name : String) (r v : ℚ) : String :=
  name ++ "在容差范围内（基准:" ++ ratStr r ++ ", 抽取:" ++ ratStr v ++ "）"

/-- Body of the `for metric in payload['used_metrics']` loop: threads the
accumulated notes list and the running confidence. The division computing
`diff` on line 60 is performed without a zero guard in the source, hence the
`zeroDivision` outcome when the reference is `0` and the value is not. -/
def processMetric (refs : RefTable) (st : List String × ℚ) (m : MetricEntry) :
    Except PyErr (List String × ℚ) :=
  if m.name ∉ SUPPORTED_METRICS then .ok st
  else
    match lookupRef refs m.name with
    | none => .ok (st.1 ++ [noRefNote m.name], st.2)
    | some rv =>
      match m.value, rv with
      | some v, some r =>
        let tol := getTolerance m.name
        if ¬ isWithinTolerance v r tol then
          if r = 0 then .error .zeroDivision
          else
            let diff := |v - r| / r * 100
            .ok (st.1 ++ [outNote m.name diff r v], min st.2 (1/2))
        else .ok (st.1 ++ [inNote m.name r v], st.2)
      | _, _ => .ok (st.1 ++ [typeNote m.name], st.2)

/-- `MetricValidator.validate`. -/
def validate (p : VPayload) (refs : RefTable) : Except PyErr VPayload :=
  if p.used_metrics = [] then .ok p
  else do
    let st ← p.used_metrics.foldlM (processMetric refs) ([], p.confidence)
    .ok { p with
          notes := if st.1 ≠ [] then pyJoin "；" st.1 else p.notes,
          confidence := st.2 }

/-! ### ResponseParser (`src/parser.py`)

`json.loads` is standard-library code, so `ResponseParser.parse` is embedded
as a function of the *decode outcomes*: `loaded` stands for
`json.loads(raw_response)` (`none` = `json.JSONDecodeError`) and `repaired`
for `self._repair_json(raw_response)` (`none` = Python `None`).  Decoded
JSON values are modelled by `Json`. -/

inductive Json where
  | null
  | bool (b : Bool)
  | num (q : ℚ)
  | str (s : String)
  | arr (l : List Json)
  | obj (l : List (String × Json))

/-- Python truthiness of a decoded JSON value. -/
def pyTruthy : Json → Bool
  | .null => false
  | .bool b => b
  | .num q => if q = 0 then false else true
  | .str s => if s = "" then false else true
  | .arr l => !l.isEmpty
  | .obj l => !l.isEmpty

/-- Key lookup in a decoded JSON object (`json.loads` collapses duplicate
keys, so objects reaching the parser have unique keys). -/
def jlookup (kvs : List (String × Json)) (k : String) : Option Json :=
  (kvs.find? (fun p => p.1 = k)).map (·.2)

def hasKey (kvs : List (String × Json)) (k : String) : Bool :=
  (jlookup kvs k).isSome

/-- The structured response `ResponseParser` synthesizes (`structured_response`
in `_validate_payload`); fields the code passes through unvalidated keep the
whole `Json` value. -/
structure ParsePayload where
  answer : Json
  confidence : ℚ
  citations : List Json
  key_points : List String
  notes : Json
  used_metrics : Json

/-- `RetrievedDocument` (`src/retriver.py`): the `metadata` dict produced by
`_merge_results` always holds exactly the two raw sub-scores, flattened here
into `metaVector`/`metaBm25`. -/
structure RetrievedDocument where
  content : String
  source : String
  location : String
  score : ℚ
  metaVector : ℚ
  metaBm25 : ℚ
  deriving DecidableEq, Repr

/-- `ResponseParser._generate_citations`. -/
def generateCitations (docs : List RetrievedDocument) : List String :=
  if docs.isEmpty then ["[无有效引用]"]
  else (docs.take 3).map (fun d => "[" ++ d.source ++ "#" ++ d.location ++ "]")

/-- `re.split(r'[。！？；\n]', s)`: split on any of the four terminal marks
or newline (a character class splits at every occurrence). -/
def splitSentences (l : List Char) : List (List Char) :=
  match l with
  | [] => [[]]
  | c :: t =>
    if c = '。' ∨ c = '！' ∨ c = '？' ∨ c = '；' ∨ c = '\n' then
      [] :: splitSentences t
    else
      match splitSentences t with
      | h :: r => (c :: h) :: r
      | [] => [[c]]

/-- `ResponseParser._extract_key_points` on a string answer. -/
def extractKeyPointsStr (s : String) : List String :=
  if s = "" ∨ s = "无法生成有效回答" then []
  else
    ((((splitSentences s.data).map String.mk).map pyStrip).filter
      (fun t => 5 < t.length)).take 5

/-- `ResponseParser._extract_key_points`: `re.split` raises `TypeError` on a
truthy non-string argument; falsy arguments short-circuit to `[]`. -/
def extractKeyPoints : Json → Except PyErr (List String)
  | .str s => .ok (extractKeyPointsStr s)
  | j => if pyTruthy j then .error .typeError else .ok []

/-- `doc.source + '#' + doc.location in citation` for one citation value:
substring test on a string, element equality on a list, key equality on a
dict, `TypeError` otherwise (Python `in` on a non-container right operand). -/
def needleIn (needle : String) : Json → Except PyErr Bool
  | .str s => .ok (strContains s needle)
  | .arr l => .ok (l.any (fun e => match e with | .str t => t = needle | _ => false))
  | .obj kvs => .ok (kvs.any (fun p => p.1 = needle))
  | _ => .error .typeError

/-- `any(doc.source + '#' + doc.location in citation for doc in retrieved_docs)`
with Python's short-circuit evaluation. -/
def anyDocIn (docs : List RetrievedDocument) (cit : Json) : Except PyErr Bool :=
  match docs with
  | [] => .ok false
  | d :: ds => do
    let b ← needleIn (d.source ++ "#" ++ d.location) cit
    if b then .ok true else anyDocIn ds cit

/-- The `for citation in citations` filter loop of `_validate_citations`. -/
def filterCitations (docs : List RetrievedDocument) :
    List Json → Except PyErr (List Json)
  | [] => .ok []
  | c :: t => do
    let b ← anyDocIn docs c
    let r ← filterCitations docs t
    .ok (if b then c :: r else r)

/-- `ResponseParser._validate_citations`. Iterating a string yields its
characters as one-character strings; iterating a dict yields its keys. -/
def validateCitations (cits : Json) (docs : List RetrievedDocument) :
    Except PyErr (List Json) :=
  if !pyTruthy cits then .ok ((generateCitations docs).map .str)
  else do
    let items : List Json ←
      match cits with
      | .arr l => .ok l
      | .str s => .ok (s.data.map (fun c => Json.str (String.mk [c])))
      | .obj kvs => .ok (kvs.map (fun p => Json.str p.1))
      | _ => .error .typeError
    let valid ← filterCitations docs items
    .ok (if valid.isEmpty then (generateCitations docs).map .str else valid)

/-- `max(0.0, min(1.0, payload.get('confidence', 0.0)))`: Python `bool` is
numeric; `min` against any other non-number raises `TypeError`. -/
def clampConfidence : Json → Except PyErr ℚ
  | .num q => .ok (max 0 (min 1 q))
  | .bool b => .ok (max 0 (min 1 (if b then 1 else 0)))
  | _ => .error .typeError

/-- `if field not in payload: payload[field] = default` (dict insertion
appends the new key at the end). -/
def fillDefault (kvs : List (String × Json)) (k : String) (v : Json) :
    List (String × Json) :=
  if hasKey kvs k then kvs else kvs ++ [(k, v)]

/-- The `for field in required_fields` backfill loop of `_validate_payload`
(fields in source order: answer, citations, notes, confidence). -/
def fillRequired (kvs : List (String × Json)) : List (String × Json) :=
  fillDefault (fillDefault (fillDefault (fillDefault kvs
    "answer" (.str "无法生成有效回答"))
    "citations" (.arr []))
    "notes" (.str ""))
    "confidence" (.num 0)

/-- The payload `_handle_openai_response` returns when anything about the
envelope is off (every exception inside it is caught). -/
def openAIFailPayload : ParsePayload :=
  { answer := .str "无法生成有效回答", confidence := 0,
    citations := [.str "[无有效引用]"], key_points := [],
    notes := .str "处理OpenAI响应失败", used_metrics := .arr [] }

/-- `ResponseParser._handle_openai_response` on a decoded object: unwraps
`choices[0].message.content` / `choices[0].text`; any failure (or falsy
content) yields `openAIFailPayload`. -/
def handleOpenAI (kvs : List (String × Json)) (docs : List RetrievedDocument) :
    ParsePayload :=
  match jlookup kvs "choices" with
  | some (.arr (choice :: _)) =>
    match choice with
    | .obj ckvs =>
      let content : Option String :=
        if hasKey ckvs "message" then
          match jlookup ckvs "message" with
          | some (.obj mkvs) =>
            match jlookup mkvs "content" with
            | some (.str s) => some s
            | _ => none
          | _ => none
        else
          match jlookup ckvs "text" with
          | some (.str s) => some s
          | _ => none
      match content with
      | some s =>
        if s ≠ "" then
          { answer := .str (pyStrip s), confidence := 9/10,
            citations := (generateCitations docs).map .str,
            key_points := extractKeyPointsStr (pyStrip s),
            notes := .str "来自大模型的直接响应", used_metrics := .arr [] }
        else openAIFailPayload
      | none => openAIFailPayload
    | _ => openAIFailPayload
  | _ => openAIFailPayload

/-- `ResponseParser._validate_payload`.  `'choices' in payload` is a key test
on a dict, a substring test on a string, an element test on a list, and a
`TypeError` on anything else; the later `payload[field] = ...` assignments
then raise `TypeError` on every non-dict payload. -/
def validatePayload (j : Json) (docs : List RetrievedDocument) :
    Except PyErr ParsePayload :=
  match j with
  | .obj kvs0 =>
    if hasKey kvs0 "choices" then .ok (handleOpenAI kvs0 docs)
    else do
      let kvs := fillRequired kvs0
      let cits ← validateCitations ((jlookup kvs "citations").getD (.arr [])) docs
      let conf ← clampConfidence ((jlookup kvs "confidence").getD (.num 0))
      let ans := (jlookup kvs "answer").getD (.str "")
      let kps ← extractKeyPoints ans
      .ok { answer := ans, confidence := conf, citations := cits,
            key_points := kps, notes := (jlookup kvs "notes").getD (.str ""),
            used_metrics := (jlookup kvs "used_metrics").getD (.arr []) }
  | .str s =>
    if strContains s "choices" then .ok openAIFailPayload else .error .typeError
  | .arr l =>
    if l.any (fun e => match e with | .str t => t = "choices" | _ => false)
    then .ok openAIFailPayload else .error .typeError
  | _ => .error .typeError

/-- `ResponseParser._extract_answer_from_response` on the fallback path.  The
function first retries `json.loads(raw_response)` to probe for an API
envelope; on this path that same call has already failed, so the probe always
lands in its `except` branch and only the fence-stripping remains. -/
def extractAnswerNoJson (raw : String) : String :=
  if raw = "" then "无法生成有效回答"
  else
    let c0 := pyStripList raw.data
    let c1 := if "```json".data.isPrefixOf c0 then c0.drop 7 else c0
    let c2 := if "```".data.isSuffixOf c1 then c1.take (c1.length - 3) else c1
    let c3 := pyStripList c2
    if c3 ≠ [] then ⟨c3⟩ else "无法生成有效回答"

/-- `ResponseParser._fallback_response`. -/
def fallbackResponse (raw : String) (docs : List RetrievedDocument) :
    ParsePayload :=
  let answer := extractAnswerNoJson raw
  { answer := .str answer, confidence := 1/2,
    citations := (generateCitations docs).map .str,
    key_points := extractKeyPointsStr answer,
    notes := .str "原始响应不是有效的JSON格式", used_metrics := .arr [] }

/-- `ResponseParser.parse`, as a function of the two decode outcomes:
`loaded = json.loads(raw)` (`none` = `JSONDecodeError`) and
`repaired = _repair_json(raw)` (`none` = `None`; a falsy repaired value also
fails the `if payload:` test and falls through to the fallback). -/
def parse (loaded repaired : Option Json) (raw : String)
    (docs : List RetrievedDocument) : Except PyErr ParsePayload :=
  match loaded with
  | some j => validatePayload j docs
  | none =>
    match repaired with
    | some j =>
      if pyTruthy j then validatePayload j docs
      else .ok (fallbackResponse raw docs)
    | none => .ok (fallbackResponse raw docs)

/-! ### Retriever (`src/retriver.py`)

`Retriever.retrieve` first queries the two backends; the claims quantify over
the backend result lists, so the embedding starts from them.  A backend match
dict (`{'id': ..., 'score': ..., 'content': ...}`) is `BackendResult`
(`result.get('score', 0)` / `result.get('content', '')` always find the
field here).  The insertion-ordered `merged_scores` dict is an association
list updated in place. -/

structure BackendResult where
  id : String
  score : ℚ
  content : String
  deriving DecidableEq, Repr

/-- One value of the `merged_scores` dict. -/
structure MergeEntry where
  vector_score : ℚ
  bm25_score : ℚ
  content : String
  deriving DecidableEq, Repr

/-- `merged_scores[doc_id] = {'vector_score': score, 'bm25_score': 0,
'content': ''}`: replace in place if the key exists, else append. -/
def upsertVec (acc : List (String × MergeEntry)) (r : BackendResult) :
    List (String × MergeEntry) :=
  if (acc.find? (fun p => p.1 = r.id)).isSome then
    acc.map (fun p => if p.1 = r.id then (r.id, ⟨r.score, 0, ""⟩) else p)
  else acc ++ [(r.id, ⟨r.score, 0, ""⟩)]

/-- The BM25 half of `_merge_results`: update the two fields if the key
exists, else insert a record with `vector_score = 0`. -/
def upsertBm (acc : List (String × MergeEntry)) (r : BackendResult) :
    List (String × MergeEntry) :=
  if (acc.find? (fun p => p.1 = r.id)).isSome then
    acc.map (fun p =>
      if p.1 = r.id then (p.1, ⟨p.2.vector_score, r.score, r.content⟩) else p)
  else acc ++ [(r.id, ⟨0, r.score, r.content⟩)]

/-- The `merged_scores` dict after both loops of `_merge_results`. -/
def mergedScores (vec bm : List BackendResult) : List (String × MergeEntry) :=
  bm.foldl upsertBm (vec.foldl upsertVec [])

/-- `final_score = (vec_weight * vector_score) + (bm25_weight *
normalized_bm25)` with `normalized_bm25 = min(1.0, bm25_score / 10.0) if
bm25_score > 0 else 0`. -/
def fuseScore (e : MergeEntry) : ℚ :=
  let normalized := if 0 < e.bm25_score then min 1 (e.bm25_score / 10) else 0
  7/10 * e.vector_score + 3/10 * normalized

/-- The `RetrievedDocument(...)` built for each merged entry. -/
def toDocument (p : String × MergeEntry) : RetrievedDocument :=
  { content := p.2.content, source := p.1, location := "unknown",
    score := fuseScore p.2, metaVector := p.2.vector_score,
    metaBm25 := p.2.bm25_score }

/-- The order of `merged_documents.sort(key=lambda x: x.score, reverse=True)`. -/
def scoreGE (a b : RetrievedDocument) : Prop := b.score ≤ a.score

instance : DecidableRel scoreGE :=
  fun a b => inferInstanceAs (Decidable (b.score ≤ a.score))

instance : IsTotal RetrievedDocument scoreGE := ⟨fun a b => le_total b.score a.score⟩

instance : IsTrans RetrievedDocument scoreGE := ⟨fun _ _ _ h1 h2 => le_trans h2 h1⟩

/-- `Retriever._merge_results` (Python's `list.sort` is stable, as is
`List.insertionSort`, so the orders agree). -/
def mergeResults (vec bm : List BackendResult) : List RetrievedDocument :=
  List.insertionSort scoreGE ((mergedScores vec bm).map toDocument)

/-- The loop of `Retriever._deduplicate` with its `seen` set. -/
def dedupGo (seen : List String) : List RetrievedDocument → List RetrievedDocument
  | [] => []
  | r :: t =>
    if r.source ∈ seen then dedupGo seen t
    else r :: dedupGo (r.source :: seen) t

/-- `Retriever._deduplicate`. -/
def deduplicate (l : List RetrievedDocument) : List RetrievedDocument :=
  dedupGo [] l

/-- `Retriever.retrieve` downstream of the two backend queries: merge the
backend results (BM25 only when enabled and configured), deduplicate, and
truncate to `k`. -/
def retrieve (vec bm : List BackendResult) (useBm25 : Bool) (k : Nat) :
    List RetrievedDocument :=
  (deduplicate (mergeResults vec (if useBm25 then bm else []))).take k

/-- Concrete backend results instantiating claim C6's hypothesis. -/
def c6Vec : List BackendResult := [⟨"a", 1/2, ""⟩, ⟨"c", 3/10, ""⟩]

def c6Bm : List BackendResult := [⟨"b", 2, "y"⟩, ⟨"c", 30, "z"⟩]

def isStrJ : Json → Bool
  | .str _ => true
  | _ => false

/-- Decoded payloads that `_validate_payload` handles without raising:
either an envelope-shaped value — an object with a `choices` key, a string
containing `"choices"`, or a list containing the string `"choices"` (all
routed to `_handle_openai_response`, whose catch-all `except` guarantees a
normal return) — or an object without `choices` whose `answer` is absent or
a string, whose `confidence` is absent or numeric (Python `bool` included),
and whose `citations` is absent, falsy, a string, or a list of strings. -/
def wfDirect : Json → Bool
  | .obj kvs =>
    hasKey kvs "choices" ||
    ((match jlookup kvs "answer" with
     | none => true | some (.str _) => true | some _ => false) &&
    (match jlookup kvs "confidence" with
     | none => true | some (.num _) => true | some (.bool _) => true
     | some _ => false) &&
    (match jlookup kvs "citations" with
     | none => true
     | some c => !pyTruthy c ||
         (match c with
          | .str _ => true
          | .arr l => l.all isStrJ
          | _ => false)))
  | .str s => strContains s "choices"
  | .arr l => l.any (fun e => match e with | .str t => t = "choices" | _ => false)
  | _ => false

/-- A well-formed decoded payload instantiating the amended claim C3:
`{"answer": "x", "citations": [], "notes": "", "confidence": 1.5}`. -/
def c3WfInput : Json :=
  .obj [("answer", .str "x"), ("citations", .arr []), ("notes", .str ""),
        ("confidence", .num (3/2))]

/-! ### Claim C1: in-tolerance validation (payloads from the repo's own test) -/

/-- The in-tolerance payload of `test_metric_validation_within_tolerance`:
claimed `inventory_turnover` 8.2, incoming confidence 0.7. -/
def c1Payload : VPayload :=
  { answer := "根据分析，库存周转率为8.2", confidence := 7/10,
    citations := ["[WMSInventoryManagement.java#L50]"],
    key_points := ["库存周转率为8.2"], notes := "",
    used_metrics := [⟨"inventory_turnover", some (41/5)⟩] }

def c1Refs : RefTable := [("inventory_turnover", some (17/2))]

/-! ### Claim C2: zero reference value -/

def c2Payload : VPayload :=
  { answer := "", confidence := 9/10, citations := [], key_points := [],
    notes := "", used_metrics := [⟨"transit_time", some 1⟩] }

def c2Refs : RefTable := [("transit_time", some 0)]

/-! ### Claim C4: `shipment_on_time_rate` (payload from the repo's own test) -/

/-- The out-of-tolerance payload of `test_metric_validation_exceed_tolerance`:
claimed `shipment_on_time_rate` 0.85, incoming confidence 0.9. -/
def c4Payload : VPayload :=
  { answer := "根据分析，发货准时率为85%", confidence := 9/10,
    citations := ["[TMSTransportationPlanner.py#L15]"],
    key_points := ["发货准时率为85%"], notes := "",
    used_metrics := [⟨"shipment_on_time_rate", some (17/20)⟩] }

def c4Refs : RefTable := [("shipment_on_time_rate", some (23/25))]

/-! ### SemanticChunker (`src/chunker.py`)

Strings are manipulated as their character lists (Python `len`/slicing count
code points, as does `List Char`).  The two `re.findall` boundary patterns
and the `re.split(r'\n\s*\n', ...)` paragraph split are implemented as
specialized engines below; both patterns are deterministic up to the
enumeration of candidate `)` positions for the lazy `.*?` (tried left to
right, exactly as the backtracking engine does).  The scanners carry a fuel
argument equal to the remaining text length; every step consumes at least
one character, so the fuel never runs out. -/

inductive ChunkMeta where
  | code (language : String) (chunk_id : Nat)
  | document (chunk_id : Nat) (sect : String)
  deriving DecidableEq, Repr

/-- `KnowledgeChunk` (dataclass): the `metadata` dict is `ChunkMeta`
(`type` is the constructor, `section` is `sect`). -/
structure KnowledgeChunk where
  content : String
  source : String
  meta : ChunkMeta
  deriving DecidableEq, Repr

/-- `s[-m:]` for `m = min(overlap, len(s))`: Python's `s[-0:]` is the whole
string. -/
def pyNegSlice (s : List Char) (m : Nat) : List Char :=
  if m = 0 then s else s.drop (s.length - m)

def countWhileP (p : Char → Bool) (l : List Char) : Nat := (l.takeWhile p).length

def isWordChar (c : Char) : Bool := c.isAlphanum || c = '_'

/-! #### `re.split(r'\n\s*\n', text)` -/

/-- Index of the last `'\n'` in a list (used for the greedy `\s*`). -/
def lastNlIdx (l : List Char) : Option Nat :=
  l.enum.foldl (fun acc pr => if pr.2 = '\n' then some pr.1 else acc) none

/-- Given the text after a candidate leading `'\n'`, the rest of the text
after a `\n\s*\n` match here, if any: the greedy `\s*` swallows the
whitespace run up to its last `'\n'`. -/
def paraSepRest (t : List Char) : Option (List Char) :=
  match lastNlIdx (t.takeWhile isPySpace) with
  | some r => some (t.drop (r + 1))
  | none => none

def splitParasGo : Nat → List Char → List Char → List (List Char)
  | 0, acc, _ => [acc.reverse]
  | _ + 1, acc, [] => [acc.reverse]
  | fuel + 1, acc, '\n' :: t =>
    match paraSepRest t with
    | some t' => acc.reverse :: splitParasGo fuel [] t'
    | none => splitParasGo fuel ('\n' :: acc) t
  | fuel + 1, acc, c :: t => splitParasGo fuel (c :: acc) t

/-- `re.split(r'\n\s*\n', text)`. -/
def splitParas (text : String) : List String :=
  (splitParasGo text.length [] text.data).map String.mk

/-! #### `re.findall(r'(def\s+\w+\s*\(.*?\)\s*:.*?)(?=def\s+\w+|\Z)', text,
re.DOTALL)` -/

/-- The lookahead `def\s+\w+`. -/
def lookaheadDef (l : List Char) : Bool :=
  match l with
  | 'd' :: 'e' :: 'f' :: t =>
    let w := countWhileP isPySpace t
    if w = 0 then false
    else
      match t.drop w with
      | c :: _ => isWordChar c
      | [] => false
  | _ => false

/-- Least offset at which `(?=def\s+\w+|\Z)` holds (`\Z` holds at the end,
so the offset always exists). -/
def findLookPos : List Char → Nat
  | [] => 0
  | c :: t => if lookaheadDef (c :: t) then 0 else 1 + findLookPos t

/-- After a candidate `)`: match `\s*:` (deterministic, since a shorter
whitespace run would put a whitespace character where `:` is required) and
then the lazy `.*?` up to the lookahead. -/
def afterCloseParen (t : List Char) : Option Nat :=
  let w := countWhileP isPySpace t
  match t.drop w with
  | ':' :: r => some (w + 1 + findLookPos r)
  | _ => none

/-- Backtracking over the candidate `)` positions of the lazy `\(.*?\)`,
left to right. -/
def findCloseFrom : List Char → Nat → Option Nat
  | [], _ => none
  | ')' :: t, pos =>
    (match afterCloseParen t with
     | some k => some (pos + 1 + k)
     | none => findCloseFrom t (pos + 1))
  | _ :: t, pos => findCloseFrom t (pos + 1)

/-- Length of the Python-function match anchored at the head, if any. -/
def matchDefAt (cs : List Char) : Option Nat :=
  match cs with
  | 'd' :: 'e' :: 'f' :: rest =>
    let w := countWhileP isPySpace rest
    if w = 0 then none
    else
      let r1 := rest.drop w
      let d := countWhileP isWordChar r1
      if d = 0 then none
      else
        let r2 := r1.drop d
        let w2 := countWhileP isPySpace r2
        match r2.drop w2 with
        | '(' :: r4 => (findCloseFrom r4 0).map (fun k => 3 + w + d + w2 + 1 + k)
        | _ => none
  | _ => none

/-- `re.findall` scan: non-overlapping leftmost matches, resuming after each
match (every match consumes at least one character, so `fuel = length`
suffices). -/
def scanFindall (m : List Char → Option Nat) : Nat → List Char → List String
  | 0, _ => []
  | _ + 1, [] => []
  | fuel + 1, c :: t =>
    match m (c :: t) with
    | some g => String.mk ((c :: t).take g) :: scanFindall m fuel ((c :: t).drop g)
    | none => scanFindall m fuel t

def findallPyDef (text : String) : List String :=
  scanFindall matchDefAt text.length text.data

/-! #### `re.findall(r'((?:public|private|protected)?\s*(?:static)?\s*\w+\s+
\w+\s*\([^)]*\)\s*\{[^}]*\})', text, re.DOTALL)` -/

def firstSome {α β : Type} : List α → (α → Option β) → Option β
  | [], _ => none
  | a :: t, f =>
    match f a with
    | some b => some b
    | none => firstSome t f

/-- Candidate lengths for `(?:public|private|protected)?`, in the engine's
priority order (each alternative, then the empty option). -/
def kwOptionLens (cs : List Char) : List Nat :=
  (if List.isPrefixOf "public".data cs then [6] else []) ++
  (if List.isPrefixOf "private".data cs then [7] else []) ++
  (if List.isPrefixOf "protected".data cs then [9] else []) ++ [0]

/-- The part of the Java-method pattern after the access keyword; every
quantifier here is deterministic (`\w`/`\s` are disjoint and the negated
classes stop exactly at the required delimiter). -/
def javaTail (cs : List Char) (kwLen : Nat) : Option Nat :=
  let r1 := cs.drop kwLen
  let w1 := countWhileP isPySpace r1
  let r2 := r1.drop w1
  firstSome (if List.isPrefixOf "static".data r2 then [6, 0] else [0])
    (fun stLen =>
      let r3 := r2.drop stLen
      let w2 := countWhileP isPySpace r3
      let r4 := r3.drop w2
      let a := countWhileP isWordChar r4
      if a = 0 then none
      else
        let r5 := r4.drop a
        let b := countWhileP isPySpace r5
        if b = 0 then none
        else
          let r6 := r5.drop b
          let c := countWhileP isWordChar r6
          if c = 0 then none
          else
            let r7 := r6.drop c
            let d := countWhileP isPySpace r7
            match r7.drop d with
            | '(' :: r8 =>
              let e := countWhileP (fun ch => ch != ')') r8
              (match r8.drop e with
               | ')' :: r9 =>
                 let f := countWhileP isPySpace r9
                 (match r9.drop f with
                  | '{' :: r10 =>
                    let g := countWhileP (fun ch => ch != '}') r10
                    (match r10.drop g with
                     | '}' :: _ =>
                       some (kwLen + w1 + stLen + w2 + a + b + c + d + 1 +
                             e + 1 + f + 1 + g + 1)
                     | _ => none)
                  | _ => none)
               | _ => none)
            | _ => none)

def matchJavaAt (cs : List Char) : Option Nat :=
  firstSome (kwOptionLens cs) (javaTail cs)

def findallJavaMethod (text : String) : List String :=
  scanFindall matchJavaAt text.length text.data

/-! #### The splitting loops -/

/-- `range(0, stop, step)` for `step > 0`. -/
def pyRangeIdx (stop step : Nat) : List Nat :=
  (List.range ((stop + step - 1) / step)).map (· * step)

/-- The forced windowing `for i in range(0, len(content), chunk_size -
overlap): content[i:i + chunk_size]`.  `range` with a zero step raises
`ValueError`; with a negative step it is empty. -/
def forceWindows (size ov : Nat) (content : List Char) :
    Except PyErr (List (List Char)) :=
  if size < ov then .ok []
  else if size = ov then .error .valueError
  else
    .ok ((((pyRangeIdx content.length (size - ov)).map
        (fun i => (content.drop i).take size)).filter (fun c => ¬ c.isEmpty)))

/-- State of the paragraph-accumulation loop of `_split_document`. -/
structure DocState where
  chunks : List KnowledgeChunk
  chunkId : Nat
  current : List Char
  sect : String

/-- One iteration of `for paragraph in paragraphs` in `_split_document`. -/
def docStep (size ov : Nat) (source : String) (st : DocState)
    (para0 : String) : DocState :=
  let para := pyStripList para0.data
  if para.isEmpty then st
  else
    let sec := if isHeading para then String.mk para else st.sect
    if size < st.current.length + para.length ∧ ¬ st.current.isEmpty then
      let st1 :=
        if (pyStripList st.current).length ≤ size then
          { st with
            chunks := st.chunks ++ [⟨String.mk (pyStripList st.current),
              source, .document st.chunkId sec⟩],
            chunkId := st.chunkId + 1 }
        else st
      let cur' :=
        if 0 < ov then
          st.current.drop (st.current.length - min ov st.current.length) ++
            '\n' :: (para ++ ['\n'])
        else para ++ ['\n']
      { chunks := st1.chunks, chunkId := st1.chunkId, current := cur',
        sect := sec }
    else
      { st with current := st.current ++ para ++ ['\n'], sect := sec }
where
  /-- `re.match(r'^[#]+.*$', p)` (no DOTALL: the stripped paragraph must be
  a single line starting with `#`) or `re.match(r'^.*\n[=-]+$', p)` (exactly
  two lines, the second all `=`/`-`). -/
  isHeading (p : List Char) : Bool :=
    (p.head? = some '#' && !p.contains '\n') ||
    (let before := p.takeWhile (fun c => c != '\n')
     let rest := p.drop (before.length + 1)
     decide (before.length < p.length) && !rest.isEmpty &&
       rest.all (fun c => c = '=' || c = '-'))

/-- `SemanticChunker._split_document`. -/
def splitDocument (size ov : Nat) (text source : String) :
    Except PyErr (List KnowledgeChunk) :=
  let st := (splitParas text).foldl (docStep size ov source) ⟨[], 0, [], ""⟩
  let c := pyStripList st.current
  if c.isEmpty then .ok st.chunks
  else if size < c.length then
    match forceWindows size ov c with
    | .error e => .error e
    | .ok pieces =>
      .ok (st.chunks ++ pieces.enum.map (fun pr =>
        ⟨String.mk pr.2, source, .document (st.chunkId + pr.1) st.sect⟩))
  else .ok (st.chunks ++ [⟨String.mk c, source, .document st.chunkId st.sect⟩])

/-- Python `func.split('\n')` (keeps empty parts). -/
def splitOnNl (l : List Char) : List (List Char) :=
  match l with
  | [] => [[]]
  | '\n' :: t => [] :: splitOnNl t
  | c :: t =>
    match splitOnNl t with
    | h :: r => (c :: h) :: r
    | [] => [[c]]

/-- State of the line-accumulation loop for an oversized code unit. -/
structure CodeState where
  chunks : List KnowledgeChunk
  chunkId : Nat
  current : List Char

/-- One iteration of `for line in lines` in `_split_code` (identical for the
python and java branches up to the `language` metadata). -/
def codeLineStep (size ov : Nat) (source lang : String) (st : CodeState)
    (line : List Char) : CodeState :=
  if size < st.current.length + line.length ∧ ¬ st.current.isEmpty then
    let st1 :=
      if (pyStripList st.current).length ≤ size then
        { st with
          chunks := st.chunks ++ [⟨String.mk (pyStripList st.current),
            source, .code lang st.chunkId⟩],
          chunkId := st.chunkId + 1 }
      else st
    { chunks := st1.chunks, chunkId := st1.chunkId,
      current := pyNegSlice st.current (min ov st.current.length) ++
        '\n' :: (line ++ ['\n']) }
  else
    { st with current := st.current ++ line ++ ['\n'] }

/-- The per-function body of `_split_code` for a function longer than
`chunk_size`: line accumulation, then the final block (emitted, forcibly
windowed, or dropped when blank). Returns the new chunks and chunk id. -/
def splitBigFunc (size ov : Nat) (source lang : String) (startId : Nat)
    (func : List Char) : Except PyErr (List KnowledgeChunk × Nat) :=
  let st := (splitOnNl func).foldl (codeLineStep size ov source lang)
    ⟨[], startId, []⟩
  let c := pyStripList st.current
  if ¬ c.isEmpty ∧ c.length ≤ size then
    .ok (st.chunks ++ [⟨String.mk c, source, .code lang st.chunkId⟩],
         st.chunkId + 1)
  else if ¬ c.isEmpty ∧ size < c.length then
    match forceWindows size ov c with
    | .error e => .error e
    | .ok pieces =>
      .ok (st.chunks ++ pieces.enum.map (fun pr =>
             ⟨String.mk pr.2, source, .code lang (st.chunkId + pr.1)⟩),
           st.chunkId + pieces.length)
  else .ok (st.chunks, st.chunkId)

/-- The `for func in funcs` loop of `_split_code` (identical for both
language branches up to the regex and the `language` metadata). -/
def codeFuncsLoop (size ov : Nat) (source ftype : String) :
    List KnowledgeChunk × Nat → List String →
    Except PyErr (List KnowledgeChunk × Nat)
  | acc, [] => .ok acc
  | acc, func :: rest =>
    if size < func.length then do
      let bf ← splitBigFunc size ov source ftype acc.2 func.data
      codeFuncsLoop size ov source ftype (acc.1 ++ bf.1, bf.2) rest
    else
      codeFuncsLoop size ov source ftype
        (acc.1 ++ [⟨String.mk (pyStripList func.data), source,
          .code ftype acc.2⟩], acc.2 + 1) rest

/-- `SemanticChunker._split_code`: the regex boundaries (whole text if
none), then per function either a single trimmed chunk or line splitting. -/
def splitCode (size ov : Nat) (text source ftype : String) :
    Except PyErr (List KnowledgeChunk) := do
  let fs := if ftype = "python" then findallPyDef text
            else findallJavaMethod text
  let funcs := if fs.isEmpty then [text] else fs
  let r ← codeFuncsLoop size ov source ftype ([], 0) funcs
  pure r.1

/-- `SemanticChunker.split`. -/
def split (size ov : Nat) (text source ftype : String) :
    Except PyErr (List KnowledgeChunk) :=
  if ftype = "java" ∨ ftype = "python" then splitCode size ov text source ftype
  else splitDocument size ov text source

/-- The document of claim C10: an oversized first paragraph (6 > chunk_size
5) followed by a further paragraph. -/
def c10Text : String := "aaaaaa\n\nbccc"

def c10Para : String := "aaaaaa"

/-- Keys of the `merged_scores` association list. -/
def entryKeys (l : List (String × MergeEntry)) : List String := l.map Prod.fst

/-- Invariant: every entry of `merged_scores` has a nonnegative BM25 score. -/
def bmNonneg (l : List (String × MergeEntry)) : Prop :=
  ∀ p ∈ l, 0 ≤ p.2.bm25_score

/-- The trailing half of `str.strip()`. -/
def bstrip (l : List Char) : List Char :=
  (l.reverse.dropWhile isPySpace).reverse

/-! ## Theorems -/

/-! ### Helper lemmas -/

theorem jlookup_append (l₁ l₂ : List (String × Json)) (k : String) :
    jlookup (l₁ ++ l₂) k = ((jlookup l₁ k).or (jlookup l₂ k)) := by
  induction l₁ with
  | nil => simp [jlookup]
  | cons p t ih =>
    by_cases h : p.1 = k
    · simp [jlookup, List.find?, h]
    · simpa [jlookup, List.find?, h] using ih

theorem jlookup_fillDefault_same (kvs : List (String × Json)) (k : String)
    (v : Json) :
    jlookup (fillDefault kvs k v) k = some ((jlookup kvs k).getD v) := by
  unfold fillDefault
  by_cases h : hasKey kvs k = true
  · rw [if_pos h]
    obtain ⟨j, hj⟩ := Option.isSome_iff_exists.mp h
    rw [hj]; rfl
  · rw [if_neg h, jlookup_append]
    have h' : jlookup kvs k = none :=
      Option.not_isSome_iff_eq_none.mp (by simpa [hasKey] using h)
    rw [h']
    simp [jlookup, List.find?]

theorem jlookup_fillDefault_other (kvs : List (String × Json))
    (k k' : String) (v : Json) (h : k ≠ k') :
    jlookup (fillDefault kvs k v) k' = jlookup kvs k' := by
  unfold fillDefault
  by_cases hk : hasKey kvs k = true
  · rw [if_pos hk]
  · rw [if_neg hk, jlookup_append]
    have h1 : jlookup [(k, v)] k' = none := by simp [jlookup, List.find?, h]
    rw [h1]
    cases jlookup kvs k' <;> rfl

theorem jlookup_fillRequired_citations (kvs : List (String × Json)) :
    jlookup (fillRequired kvs) "citations" =
      some ((jlookup kvs "citations").getD (.arr [])) := by
  unfold fillRequired
  rw [jlookup_fillDefault_other _ _ _ _ (by decide),
      jlookup_fillDefault_other _ _ _ _ (by decide),
      jlookup_fillDefault_same,
      jlookup_fillDefault_other _ _ _ _ (by decide)]

theorem jlookup_fillRequired_confidence (kvs : List (String × Json)) :
    jlookup (fillRequired kvs) "confidence" =
      some ((jlookup kvs "confidence").getD (.num 0)) := by
  unfold fillRequired
  rw [jlookup_fillDefault_same,
      jlookup_fillDefault_other _ _ _ _ (by decide),
      jlookup_fillDefault_other _ _ _ _ (by decide),
      jlookup_fillDefault_other _ _ _ _ (by decide)]

theorem jlookup_fillRequired_answer (kvs : List (String × Json)) :
    jlookup (fillRequired kvs) "answer" =
      some ((jlookup kvs "answer").getD (.str "无法生成有效回答")) := by
  unfold fillRequired
  rw [jlookup_fillDefault_other _ _ _ _ (by decide),
      jlookup_fillDefault_other _ _ _ _ (by decide),
      jlookup_fillDefault_other _ _ _ _ (by decide),
      jlookup_fillDefault_same]

theorem anyDocIn_str_ok (docs : List RetrievedDocument) (s : String) :
    ∃ b, anyDocIn docs (.str s) = .ok b := by
  induction docs with
  | nil => exact ⟨false, rfl⟩
  | cons d ds ih =>
    obtain ⟨b, hb⟩ := ih
    cases h : strContains s (d.source ++ "#" ++ d.location) with
    | true => exact ⟨true, by simp only [anyDocIn, needleIn, h]; rfl⟩
    | false => exact ⟨b, by simp only [anyDocIn, needleIn, h]; exact hb⟩

theorem filterCitations_str_ok (docs : List RetrievedDocument)
    (l : List Json) (h : ∀ e ∈ l, isStrJ e = true) :
    ∃ r, filterCitations docs l = .ok r := by
  induction l with
  | nil => exact ⟨[], rfl⟩
  | cons c t ih =>
    obtain ⟨r, hr⟩ := ih (fun e he => h e (List.mem_cons_of_mem _ he))
    have hc : isStrJ c = true := h c (List.mem_cons_self _ _)
    obtain ⟨s, rfl⟩ : ∃ s, c = .str s := by
      cases c <;> first | exact ⟨_, rfl⟩ | simp [isStrJ] at hc
    obtain ⟨b, hb⟩ := anyDocIn_str_ok docs s
    exact ⟨if b then .str s :: r else r, by
      simp only [filterCitations, hb, hr]; rfl⟩

theorem validateCitations_falsy (c : Json) (docs : List RetrievedDocument)
    (h : pyTruthy c = false) :
    validateCitations c docs = .ok ((generateCitations docs).map .str) := by
  unfold validateCitations
  rw [h]
  rfl

theorem validateCitations_str (s : String) (docs : List RetrievedDocument)
    (r : List Json) (ht : pyTruthy (.str s) = true)
    (hr : filterCitations docs
      (s.data.map (fun ch => Json.str (String.mk [ch]))) = .ok r) :
    validateCitations (.str s) docs =
      .ok (if r.isEmpty then (generateCitations docs).map .str else r) := by
  unfold validateCitations
  rw [ht]
  show (do
    let valid ← filterCitations docs
      (s.data.map (fun ch => Json.str (String.mk [ch])))
    Except.ok (if valid.isEmpty then (generateCitations docs).map .str
               else valid) : Except PyErr (List Json)) = _
  rw [hr]
  rfl

theorem validateCitations_arr (l : List Json) (docs : List RetrievedDocument)
    (r : List Json) (ht : pyTruthy (.arr l) = true)
    (hr : filterCitations docs l = .ok r) :
    validateCitations (.arr l) docs =
      .ok (if r.isEmpty then (generateCitations docs).map .str else r) := by
  unfold validateCitations
  rw [ht]
  show (do
    let valid ← filterCitations docs l
    Except.ok (if valid.isEmpty then (generateCitations docs).map .str
               else valid) : Except PyErr (List Json)) = _
  rw [hr]
  rfl

theorem validateCitations_wf_ok (c : Json) (docs : List RetrievedDocument)
    (h : pyTruthy c = false ∨ (∃ s, c = .str s) ∨
         (∃ l, c = .arr l ∧ ∀ e ∈ l, isStrJ e = true)) :
    ∃ r, validateCitations c docs = .ok r := by
  cases ht : pyTruthy c with
  | false => exact ⟨_, validateCitations_falsy c docs ht⟩
  | true =>
    rcases h with h | ⟨s, rfl⟩ | ⟨l, rfl, hl⟩
    · rw [ht] at h; cases h
    · obtain ⟨r, hr⟩ := filterCitations_str_ok docs
        (s.data.map (fun ch => Json.str (String.mk [ch]))) (by
          intro e he
          obtain ⟨ch, _, rfl⟩ := List.mem_map.mp he
          rfl)
      exact ⟨_, validateCitations_str s docs r ht hr⟩
    · obtain ⟨r, hr⟩ := filterCitations_str_ok docs l hl
      exact ⟨_, validateCitations_arr l docs r ht hr⟩

theorem clampConfidence_ok_bounds (c : Json) (q : ℚ)
    (h : clampConfidence c = .ok q) : 0 ≤ q ∧ q ≤ 1 := by
  have hx : ∃ x, q = max 0 (min 1 x) := by
    cases c <;> simp [clampConfidence] at h <;> exact ⟨_, h.symm⟩
  obtain ⟨x, rfl⟩ := hx
  exact ⟨le_max_left _ _, max_le zero_le_one (min_le_left _ _)⟩

theorem extractKeyPoints_str (s : String) :
    extractKeyPoints (.str s) = .ok (extractKeyPointsStr s) := rfl

/-- `_handle_openai_response` never raises (every exception inside it is
caught): it returns either the failure payload or the high-confidence
unwrapped envelope. -/
theorem handleOpenAI_cases (kvs : List (String × Json))
    (docs : List RetrievedDocument) :
    handleOpenAI kvs docs = openAIFailPayload ∨
    ∃ s, handleOpenAI kvs docs =
      { answer := .str (pyStrip s), confidence := 9/10,
        citations := (generateCitations docs).map .str,
        key_points := extractKeyPointsStr (pyStrip s),
        notes := .str "来自大模型的直接响应", used_metrics := .arr [] } := by
  unfold handleOpenAI
  repeat' split
  all_goals first
    | exact .inl rfl
    | (dsimp only
       split
       · exact .inr ⟨_, rfl⟩
       · exact .inl rfl)

/-- The conclusion of the amended claim C3 holds for `handleOpenAI`'s
result: a string answer and confidence `0.0` or `0.9`, both in `[0,1]`. -/
theorem handleOpenAI_ok (kvs : List (String × Json))
    (docs : List RetrievedDocument) :
    (∃ s, (handleOpenAI kvs docs).answer = .str s) ∧
    0 ≤ (handleOpenAI kvs docs).confidence ∧
    (handleOpenAI kvs docs).confidence ≤ 1 := by
  rcases handleOpenAI_cases kvs docs with he | ⟨s, he⟩ <;> rw [he]
  · exact ⟨⟨_, rfl⟩, le_refl 0, zero_le_one⟩
  · exact ⟨⟨_, rfl⟩, by norm_num, by norm_num⟩

/-- `_validate_payload` returns normally, with a string answer and clamped
confidence, on every payload satisfying `wfDirect` — the envelope branch
through `_handle_openai_response` included. -/
theorem validatePayload_wf_ok (j : Json) (docs : List RetrievedDocument)
    (h : wfDirect j = true) :
    ∃ p, validatePayload j docs = .ok p ∧ (∃ s, p.answer = .str s) ∧
      0 ≤ p.confidence ∧ p.confidence ≤ 1 := by
  cases j with
  | null => simp [wfDirect] at h
  | bool b => simp [wfDirect] at h
  | num q => simp [wfDirect] at h
  | str s =>
    have hc : strContains s "choices" = true := h
    refine ⟨openAIFailPayload, ?_, ⟨_, rfl⟩, le_refl 0, zero_le_one⟩
    unfold validatePayload
    dsimp only
    rw [if_pos hc]
  | arr l =>
    have hc : (l.any (fun e =>
        match e with | .str t => t = "choices" | _ => false)) = true := h
    refine ⟨openAIFailPayload, ?_, ⟨_, rfl⟩, le_refl 0, zero_le_one⟩
    unfold validatePayload
    dsimp only
    rw [if_pos hc]
  | obj kvs =>
    by_cases hch : hasKey kvs "choices" = true
    · refine ⟨handleOpenAI kvs docs, ?_, handleOpenAI_ok kvs docs⟩
      unfold validatePayload
      dsimp only
      rw [if_pos hch]
    · have h' : ((match jlookup kvs "answer" with
          | none => true | some (.str _) => true | some _ => false) &&
          (match jlookup kvs "confidence" with
           | none => true | some (.num _) => true | some (.bool _) => true
           | some _ => false) &&
          (match jlookup kvs "citations" with
           | none => true
           | some c => !pyTruthy c ||
               (match c with
                | .str _ => true
                | .arr l => l.all isStrJ
                | _ => false))) = true := by
        simp only [wfDirect, Bool.or_eq_true] at h
        exact h.resolve_left hch
      simp only [Bool.and_eq_true] at h'
      obtain ⟨⟨hans, hconf⟩, hcits⟩ := h'
      obtain ⟨cr, hcr⟩ := validateCitations_wf_ok
        ((jlookup kvs "citations").getD (.arr [])) docs (by
          cases hc : jlookup kvs "citations" with
          | none => exact .inl rfl
          | some c =>
            rw [hc] at hcits
            dsimp only at hcits
            simp only [Option.getD_some]
            by_cases ht : pyTruthy c = true
            · rw [ht] at hcits
              simp only [Bool.not_true, Bool.false_or] at hcits
              cases c with
              | str s => exact .inr (.inl ⟨_, rfl⟩)
              | arr l => exact .inr (.inr ⟨_, rfl,
                  fun e he => List.all_eq_true.mp hcits e he⟩)
              | null => cases hcits
              | bool b => cases hcits
              | num q => cases hcits
              | obj kvs2 => cases hcits
            · exact .inl (by simpa using ht))
      have hcq : ∃ q, clampConfidence
          ((jlookup kvs "confidence").getD (.num 0)) = .ok q := by
        cases hc : jlookup kvs "confidence" with
        | none => exact ⟨_, rfl⟩
        | some c =>
          rw [hc] at hconf
          cases c <;> first | exact ⟨_, rfl⟩ | simp at hconf
      obtain ⟨q, hq⟩ := hcq
      have hansStr : ∃ s,
          (jlookup kvs "answer").getD (.str "无法生成有效回答") = .str s := by
        cases hc : jlookup kvs "answer" with
        | none => exact ⟨_, rfl⟩
        | some c =>
          rw [hc] at hans
          cases c <;> first | exact ⟨_, rfl⟩ | simp at hans
      obtain ⟨s, hs⟩ := hansStr
      refine ⟨{ answer := .str s, confidence := q, citations := cr,
                key_points := extractKeyPointsStr s,
                notes := (jlookup (fillRequired kvs) "notes").getD (.str ""),
                used_metrics :=
                  (jlookup (fillRequired kvs) "used_metrics").getD (.arr []) },
              ?_, ⟨s, rfl⟩, (clampConfidence_ok_bounds _ q hq).1,
              (clampConfidence_ok_bounds _ q hq).2⟩
      unfold validatePayload
      dsimp only
      rw [if_neg hch]
      simp only [jlookup_fillRequired_citations, jlookup_fillRequired_confidence,
        jlookup_fillRequired_answer, Option.getD_some, hs, hcr, hq]
      rfl

theorem dedupGo_sublist (seen : List String) (l : List RetrievedDocument) :
    List.Sublist (dedupGo seen l) l := by
  induction l generalizing seen with
  | nil => exact List.Sublist.refl []
  | cons r t ih =>
    by_cases h : r.source ∈ seen
    · simp only [dedupGo, if_pos h]
      exact (ih seen).cons r
    · simp only [dedupGo, if_neg h]
      exact (ih _).cons₂ r

theorem dedupGo_sources (seen : List String) (l : List RetrievedDocument) :
    (dedupGo seen l).Pairwise (fun a b => a.source ≠ b.source) ∧
    ∀ x ∈ dedupGo seen l, x.source ∉ seen := by
  induction l generalizing seen with
  | nil => exact ⟨List.Pairwise.nil, by simp [dedupGo]⟩
  | cons r t ih =>
    by_cases h : r.source ∈ seen
    · simp only [dedupGo, if_pos h]
      exact ih seen
    · simp only [dedupGo, if_neg h]
      obtain ⟨hp, hmem⟩ := ih (r.source :: seen)
      refine ⟨List.Pairwise.cons ?_ hp, ?_⟩
      · intro b hb hEq
        have hbmem : b.source ∈ r.source :: seen := by
          rw [← hEq]; exact List.mem_cons_self _ _
        exact (hmem b hb) hbmem
      · intro x hx
        rcases List.mem_cons.mp hx with rfl | hx
        · exact h
        · exact fun hxs => (hmem x hx) (List.mem_cons_of_mem _ hxs)

theorem mergeResults_sorted (vec bm : List BackendResult) :
    (mergeResults vec bm).Sorted scoreGE :=
  List.sorted_insertionSort scoreGE _


theorem keys_upsertVec (acc : List (String × MergeEntry)) (r : BackendResult) :
    entryKeys (upsertVec acc r) = entryKeys acc ∨
    entryKeys (upsertVec acc r) = entryKeys acc ++ [r.id] := by
  unfold upsertVec
  by_cases h : (acc.find? (fun p => p.1 = r.id)).isSome
  · left
    rw [if_pos h]
    unfold entryKeys
    rw [List.map_map]
    apply List.map_congr_left
    intro p _
    by_cases hpk : p.1 = r.id
    · simp [Function.comp, hpk]
    · simp [Function.comp, hpk]
  · right
    rw [if_neg h]
    simp [entryKeys]

theorem keys_upsertBm (acc : List (String × MergeEntry)) (r : BackendResult) :
    entryKeys (upsertBm acc r) = entryKeys acc ∨
    entryKeys (upsertBm acc r) = entryKeys acc ++ [r.id] := by
  unfold upsertBm
  by_cases h : (acc.find? (fun p => p.1 = r.id)).isSome
  · left
    rw [if_pos h]
    unfold entryKeys
    rw [List.map_map]
    apply List.map_congr_left
    intro p _
    by_cases hpk : p.1 = r.id
    · simp [Function.comp, hpk]
    · simp [Function.comp, hpk]
  · right
    rw [if_neg h]
    simp [entryKeys]

theorem mem_keys_upsertVec (acc : List (String × MergeEntry))
    (r : BackendResult) (k : String) (h : k ∈ entryKeys acc) :
    k ∈ entryKeys (upsertVec acc r) := by
  rcases keys_upsertVec acc r with he | he <;> rw [he] <;> simp [h]

theorem mem_keys_upsertBm (acc : List (String × MergeEntry))
    (r : BackendResult) (k : String) (h : k ∈ entryKeys acc) :
    k ∈ entryKeys (upsertBm acc r) := by
  rcases keys_upsertBm acc r with he | he <;> rw [he] <;> simp [h]

theorem id_mem_keys_upsertVec (acc : List (String × MergeEntry))
    (r : BackendResult) : r.id ∈ entryKeys (upsertVec acc r) := by
  unfold upsertVec
  by_cases h : (acc.find? (fun p => p.1 = r.id)).isSome
  · rw [if_pos h]
    obtain ⟨p, hmem, hpk⟩ := List.find?_isSome.mp h
    have hpk' : p.1 = r.id := of_decide_eq_true hpk
    refine List.mem_map.mpr ⟨_, List.mem_map.mpr ⟨p, hmem, rfl⟩, ?_⟩
    simp [hpk']
  · rw [if_neg h]
    simp [entryKeys]

theorem id_mem_keys_upsertBm (acc : List (String × MergeEntry))
    (r : BackendResult) : r.id ∈ entryKeys (upsertBm acc r) := by
  unfold upsertBm
  by_cases h : (acc.find? (fun p => p.1 = r.id)).isSome
  · rw [if_pos h]
    obtain ⟨p, hmem, hpk⟩ := List.find?_isSome.mp h
    have hpk' : p.1 = r.id := of_decide_eq_true hpk
    refine List.mem_map.mpr ⟨_, List.mem_map.mpr ⟨p, hmem, rfl⟩, ?_⟩
    simp [hpk']
  · rw [if_neg h]
    simp [entryKeys]

theorem keys_foldl_upsertVec_mono (l : List BackendResult)
    (acc : List (String × MergeEntry)) (k : String) (h : k ∈ entryKeys acc) :
    k ∈ entryKeys (l.foldl upsertVec acc) := by
  induction l generalizing acc with
  | nil => exact h
  | cons r t ih => exact ih _ (mem_keys_upsertVec _ _ _ h)

theorem keys_foldl_upsertBm_mono (l : List BackendResult)
    (acc : List (String × MergeEntry)) (k : String) (h : k ∈ entryKeys acc) :
    k ∈ entryKeys (l.foldl upsertBm acc) := by
  induction l generalizing acc with
  | nil => exact h
  | cons r t ih => exact ih _ (mem_keys_upsertBm _ _ _ h)

theorem mem_vec_keys (vec : List BackendResult)
    (acc : List (String × MergeEntry)) :
    ∀ r ∈ vec, r.id ∈ entryKeys (vec.foldl upsertVec acc) := by
  induction vec generalizing acc with
  | nil => intro r h; cases h
  | cons x t ih =>
    intro r hr
    rcases List.mem_cons.mp hr with rfl | hr
    · exact keys_foldl_upsertVec_mono t _ _ (id_mem_keys_upsertVec acc r)
    · exact ih _ r hr

theorem mem_bm_keys (bm : List BackendResult)
    (acc : List (String × MergeEntry)) :
    ∀ r ∈ bm, r.id ∈ entryKeys (bm.foldl upsertBm acc) := by
  induction bm generalizing acc with
  | nil => intro r h; cases h
  | cons x t ih =>
    intro r hr
    rcases List.mem_cons.mp hr with rfl | hr
    · exact keys_foldl_upsertBm_mono t _ _ (id_mem_keys_upsertBm acc r)
    · exact ih _ r hr


theorem bmNonneg_upsertVec (acc : List (String × MergeEntry))
    (r : BackendResult) (h : bmNonneg acc) : bmNonneg (upsertVec acc r) := by
  unfold upsertVec
  by_cases hf : (acc.find? (fun p => p.1 = r.id)).isSome
  · rw [if_pos hf]
    intro p hp
    obtain ⟨p0, hp0, rfl⟩ := List.mem_map.mp hp
    by_cases hk : p0.1 = r.id
    · simp [hk]
    · simpa [hk] using h p0 hp0
  · rw [if_neg hf]
    intro p hp
    rcases List.mem_append.mp hp with hp | hp
    · exact h p hp
    · rw [List.mem_singleton] at hp
      subst hp
      exact le_refl 0

theorem bmNonneg_upsertBm (acc : List (String × MergeEntry))
    (r : BackendResult) (hr : 0 ≤ r.score) (h : bmNonneg acc) :
    bmNonneg (upsertBm acc r) := by
  unfold upsertBm
  by_cases hf : (acc.find? (fun p => p.1 = r.id)).isSome
  · rw [if_pos hf]
    intro p hp
    obtain ⟨p0, hp0, rfl⟩ := List.mem_map.mp hp
    by_cases hk : p0.1 = r.id
    · simpa [hk] using hr
    · simpa [hk] using h p0 hp0
  · rw [if_neg hf]
    intro p hp
    rcases List.mem_append.mp hp with hp | hp
    · exact h p hp
    · rw [List.mem_singleton] at hp
      subst hp
      exact hr

theorem bmNonneg_mergedScores (vec bm : List BackendResult)
    (hbm : ∀ r ∈ bm, 0 ≤ r.score) : bmNonneg (mergedScores vec bm) := by
  unfold mergedScores
  have h0 : ∀ (l : List BackendResult) acc, bmNonneg acc →
      bmNonneg (l.foldl upsertVec acc) := by
    intro l
    induction l with
    | nil => exact fun _ h => h
    | cons x t ih => exact fun acc h => ih _ (bmNonneg_upsertVec _ _ h)
  have h1 : ∀ (l : List BackendResult) acc, (∀ r ∈ l, 0 ≤ r.score) →
      bmNonneg acc → bmNonneg (l.foldl upsertBm acc) := by
    intro l
    induction l with
    | nil => exact fun _ _ h => h
    | cons x t ih =>
      intro acc hl h
      exact ih _ (fun r hr => hl r (List.mem_cons_of_mem _ hr))
        (bmNonneg_upsertBm _ _ (hl x (List.mem_cons_self _ _)) h)
  exact h1 bm _ hbm (h0 vec [] (fun p hp => absurd hp (List.not_mem_nil p)))

theorem dropWhile_idem (p : Char → Bool) (l : List Char) :
    (l.dropWhile p).dropWhile p = l.dropWhile p := by
  induction l with
  | nil => rfl
  | cons a t ih =>
    by_cases h : p a
    · simpa [List.dropWhile_cons, h] using ih
    · simp [List.dropWhile_cons, h]

theorem dropWhile_head_false (p : Char → Bool) (l : List Char) :
    l.dropWhile p = [] ∨
    ∃ a t, l.dropWhile p = a :: t ∧ p a = false := by
  induction l with
  | nil => exact .inl rfl
  | cons a t ih =>
    by_cases h : p a
    · simpa [List.dropWhile_cons, h] using ih
    · exact .inr ⟨a, t, by simp [List.dropWhile_cons, h], by simp [h]⟩


theorem pyStripList_eq_bstrip (l : List Char) :
    pyStripList l = bstrip (l.dropWhile isPySpace) := rfl

theorem bstrip_append_space (l : List Char) (c : Char)
    (h : isPySpace c = true) : bstrip (l ++ [c]) = bstrip l := by
  simp [bstrip, List.reverse_append, List.dropWhile_cons, h]

theorem bstrip_idem (l : List Char) : bstrip (bstrip l) = bstrip l := by
  unfold bstrip
  rw [List.reverse_reverse, dropWhile_idem]

theorem bstrip_prefix (l : List Char) : bstrip l <+: l := by
  obtain ⟨t, ht⟩ := List.dropWhile_suffix (l := l.reverse) isPySpace
  refine ⟨t.reverse, ?_⟩
  rw [bstrip, ← List.reverse_append, ht, List.reverse_reverse]

theorem strip_append_nl (l : List Char) :
    pyStripList (pyStripList l ++ ['\n']) = pyStripList l := by
  rw [pyStripList_eq_bstrip, pyStripList_eq_bstrip]
  rcases dropWhile_head_false isPySpace l with h | ⟨a, t, h, ha⟩
  · rw [h]
    rfl
  · rw [h]
    rcases hbs : bstrip (a :: t) with _ | ⟨b, u⟩
    · rfl
    · have hb : b = a := by
        have hpre := bstrip_prefix (a :: t)
        rw [hbs] at hpre
        obtain ⟨r, hr⟩ := hpre
        simp only [List.cons_append, List.cons.injEq] at hr
        exact hr.1
      subst hb
      have hdw : ((b :: u) ++ ['\n']).dropWhile isPySpace = (b :: u) ++ ['\n'] := by
        simp [List.cons_append, List.dropWhile_cons, ha]
      rw [hdw, bstrip_append_space _ _ (by decide), ← hbs, bstrip_idem]

theorem pyStripList_length_le (l : List Char) :
    (pyStripList l).length ≤ l.length := by
  unfold pyStripList
  rw [List.length_reverse]
  refine le_trans ((List.dropWhile_suffix _).sublist.length_le) ?_
  rw [List.length_reverse]
  exact (List.dropWhile_suffix _).sublist.length_le

theorem pyStrip_ne_nil (text : String) (hne : pyStrip text ≠ "") :
    ¬ (pyStripList text.data).isEmpty = true := by
  intro h
  exact hne (by rw [pyStrip, List.isEmpty_iff.mp h])

/-! ### Claim theorems -/

/-- C1: on a payload claiming `inventory_turnover` 8.2 against reference 8.5
(deviation ≈3.5%, within the 5% tolerance), `MetricValidator.validate`
appends the in-tolerance note but returns confidence 0.7 unchanged — it is
never raised to the 0.8 floor the claim (and the repository's own test
`test_metric_validation_within_tolerance`) requires. -/
theorem validate_inTolerance_confidence_not_raised :
    validate c1Payload c1Refs =
      .ok { c1Payload with
            notes := inNote "inventory_turnover" (17/2) (41/5) } ∧
    ((7 : ℚ)/10 < 4/5) ∧
    strContains (inNote "inventory_turnover" (17/2) (41/5))
      ("inventory_turnover" ++ "在容差范围内") = true := by
  refine ⟨by decide, by norm_num, by decide⟩

/-- C2: for a supported metric with reference value 0 and claimed value 1,
`MetricValidator.validate` does not degrade gracefully: line 60 divides
`abs(metric_value - ref_value)` by the zero reference and the call raises
`ZeroDivisionError` instead of returning a payload. -/
theorem validate_zero_reference_raises :
    validate c2Payload c2Refs = .error .zeroDivision := by decide

/-- C4: `shipment_on_time_rate` is absent from `SUPPORTED_METRICS`, so
`MetricValidator.validate` skips the metric entirely: the payload comes back
unchanged with confidence 0.9 (not 0.5) and without any "7.6" note — against
the claim and the repository's own test
`test_metric_validation_exceed_tolerance`. Validating the metric the
allow-list does support, `on_time_delivery_rate`, on the same numbers does
produce confidence 0.5 and the "7.6" note. -/
theorem validate_shipment_metric_skipped :
    validate c4Payload c4Refs = .ok c4Payload ∧
    strContains c4Payload.notes "7.6" = false ∧
    "shipment_on_time_rate" ∉ SUPPORTED_METRICS ∧
    validate { c4Payload with
               used_metrics := [⟨"on_time_delivery_rate", some (17/20)⟩] }
             [("on_time_delivery_rate", some (23/25))] =
      .ok { c4Payload with
            used_metrics := [⟨"on_time_delivery_rate", some (17/20)⟩],
            confidence := 1/2,
            notes := outNote "on_time_delivery_rate" (175/23) (23/25) (17/20) } ∧
    strContains (outNote "on_time_delivery_rate" (175/23) (23/25) (17/20)) "7.6"
      = true := by
  refine ⟨by decide, by decide, by decide, by decide, by decide⟩

/-- C5: for every pair of backend result lists, every `use_bm25` flag and
every `k`, `Retriever.retrieve` returns at most `k` results, no two returned
results share a `source`, and the scores are non-increasing. -/
theorem retrieve_invariants (vec bm : List BackendResult) (useBm25 : Bool)
    (k : Nat) :
    (retrieve vec bm useBm25 k).length ≤ k ∧
    (retrieve vec bm useBm25 k).Pairwise (fun a b => a.source ≠ b.source) ∧
    (retrieve vec bm useBm25 k).Sorted scoreGE := by
  refine ⟨?_, ?_, ?_⟩
  · exact List.length_take_le k _
  · exact List.Pairwise.sublist (List.take_sublist _ _) (dedupGo_sources [] _).1
  · exact List.Pairwise.sublist
      ((List.take_sublist _ _).trans (dedupGo_sublist [] _))
      (mergeResults_sorted _ _)

/-- C6: every merged match carries the fused score
`0.7 * vector_score + 0.3 * min(1, bm25_score / 10)` (the sub-scores are the
two metadata fields), and every identifier from either backend appears among
the merged documents — a one-sided identifier gets a zero contribution from
the missing backend rather than being excluded.  The hypothesis that lexical
scores are nonnegative reflects the BM25 backend (term-match counts); for a
negative lexical score the code's `if bm25_score > 0 else 0` branch and the
claim's `min` formula differ. -/
theorem merge_fusion_formula (vec bm : List BackendResult)
    (hbm : ∀ r ∈ bm, 0 ≤ r.score) :
    (∀ d ∈ mergeResults vec bm,
        d.score = 7/10 * d.metaVector + 3/10 * min 1 (d.metaBm25 / 10)) ∧
    (∀ r ∈ vec, ∃ d ∈ mergeResults vec bm, d.source = r.id) ∧
    (∀ r ∈ bm, ∃ d ∈ mergeResults vec bm, d.source = r.id) := by
  have hperm := List.perm_insertionSort scoreGE
    ((mergedScores vec bm).map toDocument)
  have hmemiff : ∀ d : RetrievedDocument, d ∈ mergeResults vec bm ↔
      d ∈ (mergedScores vec bm).map toDocument := fun d => hperm.mem_iff
  refine ⟨?_, ?_, ?_⟩
  · intro d hd
    obtain ⟨p, hp, rfl⟩ := List.mem_map.mp ((hmemiff _).mp hd)
    have hb := bmNonneg_mergedScores vec bm hbm p hp
    show fuseScore p.2 = _
    unfold fuseScore
    by_cases hpos : 0 < p.2.bm25_score
    · rw [if_pos hpos]
      rfl
    · have hz : p.2.bm25_score = 0 := le_antisymm (not_lt.mp hpos) hb
      rw [if_neg hpos]
      show _ = 7/10 * p.2.vector_score + 3/10 * min 1 (p.2.bm25_score / 10)
      rw [hz, zero_div, min_eq_right (zero_le_one' ℚ)]
  · intro r hr
    have hk : r.id ∈ entryKeys (mergedScores vec bm) := by
      unfold mergedScores
      exact keys_foldl_upsertBm_mono bm _ _ (mem_vec_keys vec [] r hr)
    obtain ⟨p, hp, hpk⟩ := List.mem_map.mp hk
    exact ⟨toDocument p, (hmemiff _).mpr (List.mem_map.mpr ⟨p, hp, rfl⟩), hpk⟩
  · intro r hr
    have hk : r.id ∈ entryKeys (mergedScores vec bm) :=
      mem_bm_keys bm _ r hr
    obtain ⟨p, hp, hpk⟩ := List.mem_map.mp hk
    exact ⟨toDocument p, (hmemiff _).mpr (List.mem_map.mpr ⟨p, hp, rfl⟩), hpk⟩

theorem merge_fusion_formula_witness :
    (∀ r ∈ c6Bm, 0 ≤ r.score) ∧
    ((∀ d ∈ mergeResults c6Vec c6Bm,
        d.score = 7/10 * d.metaVector + 3/10 * min 1 (d.metaBm25 / 10)) ∧
     (∀ r ∈ c6Vec, ∃ d ∈ mergeResults c6Vec c6Bm, d.source = r.id) ∧
     (∀ r ∈ c6Bm, ∃ d ∈ mergeResults c6Vec c6Bm, d.source = r.id)) :=
  ⟨by decide, merge_fusion_formula c6Vec c6Bm (by decide)⟩

/-- C3 (counterexample): `json.loads("42")` succeeds with the non-object
value `42`, on which `_validate_payload` evaluates `'choices' in 42` and the
subsequent item assignment — `ResponseParser.parse("42", [])` raises
`TypeError` instead of returning a payload. -/
theorem parse_nonObject_json_raises :
    parse (some (.num 42)) none "42" [] = .error .typeError := rfl

/-- C3 (amended): `ResponseParser.parse` returns a payload with all six
fields, a non-null string `answer` and `confidence` clamped to `[0,1]`
whenever the decoded value (strict or repaired tier) is a well-formed direct
payload (`wfDirect`), and unconditionally on the fallback path where decoding
and repair both fail. -/
theorem parse_wf_or_fallback_ok (loaded repaired : Option Json)
    (raw : String) (docs : List RetrievedDocument)
    (h1 : ∀ j, loaded = some j → wfDirect j = true)
    (h2 : ∀ j, repaired = some j → pyTruthy j = true → wfDirect j = true) :
    ∃ p, parse loaded repaired raw docs = .ok p ∧ (∃ s, p.answer = .str s) ∧
      0 ≤ p.confidence ∧ p.confidence ≤ 1 := by
  cases loaded with
  | some j => exact validatePayload_wf_ok j docs (h1 j rfl)
  | none =>
    cases repaired with
    | some j =>
      cases ht : pyTruthy j with
      | true =>
        obtain ⟨p, hp, hrest⟩ := validatePayload_wf_ok j docs (h2 j rfl ht)
        exact ⟨p, by simp only [parse, ht, if_true]; exact hp, hrest⟩
      | false =>
        exact ⟨fallbackResponse raw docs, by simp only [parse, ht]; rfl,
          ⟨_, rfl⟩, show (0:ℚ) ≤ 1/2 by norm_num, show (1:ℚ)/2 ≤ 1 by norm_num⟩
    | none =>
      exact ⟨fallbackResponse raw docs, rfl, ⟨_, rfl⟩,
        show (0:ℚ) ≤ 1/2 by norm_num, show (1:ℚ)/2 ≤ 1 by norm_num⟩

theorem parse_wf_or_fallback_ok_witness :
    wfDirect c3WfInput = true ∧
    ∃ p, parse (some c3WfInput) none "" [] = .ok p ∧
      (∃ s, p.answer = .str s) ∧ 0 ≤ p.confidence ∧ p.confidence ≤ 1 := by
  refine ⟨by decide, ?_⟩
  exact parse_wf_or_fallback_ok (some c3WfInput) none "" []
    (fun j hj => Option.some.inj hj ▸ (by decide))
    (fun j hj _ => nomatch hj)

/-- C9: on the literal string `"not json"` (which `json.loads` and
`_repair_json` both reject), `ResponseParser.parse` returns the fallback
payload: answer `"not json"`, confidence 0.5, citations synthesized from the
retrieved documents, and the invalid-structured-format note; with no
documents the synthesized citations are the sentinel. -/
theorem parse_not_json_fallback (docs : List RetrievedDocument) :
    parse none none "not json" docs =
      .ok { answer := .str "not json", confidence := 1/2,
            citations := (generateCitations docs).map .str,
            key_points := ["not json"],
            notes := .str "原始响应不是有效的JSON格式",
            used_metrics := .arr [] } ∧
    generateCitations [] = ["[无有效引用]"] := by
  constructor
  · show Except.ok (fallbackResponse "not json" docs) = _
    have h1 : extractAnswerNoJson "not json" = "not json" := by decide
    have h2 : extractKeyPointsStr "not json" = ["not json"] := by decide
    simp only [fallbackResponse, h1, h2]
  · rfl

/-- C7 (counterexample): `SemanticChunker.split('', source, 'python')` does
not return zero units: with no regex boundary the code falls back to
`funcs = [text]` and the short-function branch unconditionally appends
`func.strip()`, emitting one unit with empty content. -/
theorem split_empty_code_not_nil :
    split 500 50 "" "src" "python" = .ok [⟨"", "src", .code "python" 0⟩] ∧
    ([⟨"", "src", .code "python" 0⟩] : List KnowledgeChunk) ≠ [] :=
  ⟨rfl, by decide⟩

/-- C7 (amended): splitting the empty string yields zero units for document
kinds, but exactly one unit with empty content for the code kinds `python`
and `java` — for every chunk size and overlap. -/
theorem split_empty_input (size ov : Nat) (source ftype : String)
    (h : ftype ≠ "java" ∧ ftype ≠ "python") :
    split size ov "" source ftype = .ok [] ∧
    split size ov "" source "python" = .ok [⟨"", source, .code "python" 0⟩] ∧
    split size ov "" source "java" = .ok [⟨"", source, .code "java" 0⟩] := by
  refine ⟨?_, rfl, rfl⟩
  unfold split
  rw [if_neg (fun hc => hc.elim h.1 h.2)]
  rfl

theorem split_empty_input_witness :
    (("text" : String) ≠ "java" ∧ ("text" : String) ≠ "python") ∧
    (split 500 50 "" "doc" "text" = .ok [] ∧
     split 500 50 "" "doc" "python" = .ok [⟨"", "doc", .code "python" 0⟩] ∧
     split 500 50 "" "doc" "java" = .ok [⟨"", "doc", .code "java" 0⟩]) :=
  ⟨⟨by decide, by decide⟩,
   split_empty_input 500 50 "doc" "text" ⟨by decide, by decide⟩⟩

/-- C8 (counterexample): the blank document `" "` is non-empty and shorter
than `chunk_size`, yet `SemanticChunker.split` returns zero units (the
stripped paragraph is empty and is skipped), not one unit. -/
theorem split_blank_short_doc_zero_units :
    split 500 50 " " "src" "text" = .ok [] ∧
    (" " : String) ≠ "" ∧ (" " : String).length < 500 :=
  ⟨rfl, by decide, by decide⟩

/-- C8 (amended): a text shorter than `chunk_size` splits into exactly one
unit equal to the trimmed input, provided the boundary pass leaves it whole:
for document kinds the text must contain no blank-line paragraph separator
and trim to something non-empty; for the code kinds the respective regex
must find no function/method boundary. -/
theorem split_short_text_single_unit (size ov : Nat)
    (text source ftype : String)
    (hft : ftype ≠ "java" ∧ ftype ≠ "python")
    (hsep : splitParas text = [text])
    (hne : pyStrip text ≠ "")
    (hlen : text.length < size)
    (hpy : findallPyDef text = [])
    (hjv : findallJavaMethod text = []) :
    split size ov text source ftype =
      .ok [⟨pyStrip text, source, .document 0
        (if docStep.isHeading (pyStripList text.data) = true
         then String.mk (pyStripList text.data) else "")⟩] ∧
    split size ov text source "python" =
      .ok [⟨pyStrip text, source, .code "python" 0⟩] ∧
    split size ov text source "java" =
      .ok [⟨pyStrip text, source, .code "java" 0⟩] := by
  have hlen' : text.data.length < size := hlen
  have hns : ¬ size < (pyStripList text.data).length :=
    not_lt.mpr (le_of_lt (lt_of_le_of_lt (pyStripList_length_le _) hlen'))
  have hinit : docStep size ov source ⟨[], 0, [], ""⟩ text =
      ⟨[], 0, pyStripList text.data ++ ['\n'],
       if docStep.isHeading (pyStripList text.data) = true
       then String.mk (pyStripList text.data) else ""⟩ := by
    unfold docStep
    dsimp only
    rw [if_neg (pyStrip_ne_nil text hne)]
    rw [if_neg (show ¬(size < List.length ([] : List Char) +
        (pyStripList text.data).length ∧
        ¬([] : List Char).isEmpty = true) from fun hand => hand.2 rfl)]
    simp [List.nil_append]
  refine ⟨?_, ?_, ?_⟩
  · unfold split
    rw [if_neg (fun hc => hc.elim hft.1 hft.2)]
    unfold splitDocument
    rw [hsep]
    simp only [List.foldl_cons, List.foldl_nil]
    rw [hinit]
    dsimp only
    rw [strip_append_nl]
    rw [if_neg (pyStrip_ne_nil text hne)]
    rw [if_neg hns]
    rfl
  · have hsc : splitCode size ov text source "python" =
        (do
          let r ← codeFuncsLoop size ov source "python" ([], 0) [text]
          pure r.1) := by
      unfold splitCode
      rw [if_pos rfl, hpy]
      rfl
    have hloop : codeFuncsLoop size ov source "python" ([], 0) [text] =
        .ok ([⟨pyStrip text, source, .code "python" 0⟩], 1) := by
      unfold codeFuncsLoop
      rw [if_neg (not_lt.mpr hlen.le)]
      rfl
    unfold split
    rw [if_pos (Or.inr rfl), hsc, hloop]
    rfl
  · have hsc : splitCode size ov text source "java" =
        (do
          let r ← codeFuncsLoop size ov source "java" ([], 0) [text]
          pure r.1) := by
      unfold splitCode
      rw [if_neg (by decide), hjv]
      rfl
    have hloop : codeFuncsLoop size ov source "java" ([], 0) [text] =
        .ok ([⟨pyStrip text, source, .code "java" 0⟩], 1) := by
      unfold codeFuncsLoop
      rw [if_neg (not_lt.mpr hlen.le)]
      rfl
    unfold split
    rw [if_pos (Or.inl rfl), hsc, hloop]
    rfl

theorem split_short_text_single_unit_witness :
    (("text" : String) ≠ "java" ∧ ("text" : String) ≠ "python") ∧
    splitParas "hello world" = ["hello world"] ∧
    pyStrip "hello world" ≠ "" ∧
    ("hello world" : String).length < 500 ∧
    findallPyDef "hello world" = [] ∧
    findallJavaMethod "hello world" = [] ∧
    split 500 50 "hello world" "src" "text" =
      .ok [⟨pyStrip "hello world", "src", .document 0
        (if docStep.isHeading (pyStripList ("hello world" : String).data) = true
         then String.mk (pyStripList ("hello world" : String).data) else "")⟩] :=
  ⟨⟨by decide, by decide⟩, by decide, by decide, by decide, by decide, by decide,
   (split_short_text_single_unit 500 50 "hello world" "src" "text"
     ⟨by decide, by decide⟩ (by decide) (by decide) (by decide) (by decide)
     (by decide)).1⟩

/-- C10: on a document whose first paragraph (6 characters) exceeds
`chunk_size = 5` and is followed by a further paragraph, with
`overlap = 2 > 0`, the flush point discards the oversized buffer (its
trimmed length exceeds `chunk_size`, so it is neither emitted nor windowed)
and only the 2-character overlap tail survives: no returned unit contains
the paragraph `"aaaaaa"`. -/
theorem doc_oversized_paragraph_dropped :
    splitParas c10Text = [c10Para, "bccc"] ∧
    5 < c10Para.length ∧
    split 5 2 c10Text "src" "text" =
      .ok [⟨"a\n\nbc", "src", .document 0 ""⟩,
           ⟨"bccc", "src", .document 1 ""⟩,
           ⟨"c", "src", .document 2 ""⟩] ∧
    ([⟨"a\n\nbc", "src", .document 0 ""⟩,
      ⟨"bccc", "src", .document 1 ""⟩,
      ⟨"c", "src", ChunkMeta.document 2 ""⟩] : List KnowledgeChunk).all
      (fun ch => !(strContains ch.content c10Para)) = true := by
  refine ⟨by decide, by decide, by decide, by decide⟩

end CES
